import Mathlib

/-!
Shallow embedding of the ve-tos-ts-sdk request signer (src/signer.ts) and the
client call sites (src/client.ts), over which the specification's claims are
settled.  Bytes are `Nat`s below 256, 32-bit words are `Nat`s reduced modulo
2^32, and JavaScript strings are Lean `String`s (sequences of Unicode scalar
values).  The Web Crypto primitives the source calls (`crypto.subtle.digest`
with SHA-256 and HMAC signing) are embedded as executable pure functions
following FIPS 180-4 and RFC 2104.
-/

namespace VeTos

/-- Reduce a natural number to a 32-bit word, mirroring 32-bit wraparound. -/
def w32 (n : Nat) : Nat := n % 4294967296

/-- Right rotation of a 32-bit word by `n` places. -/
def rotr32 (x n : Nat) : Nat := w32 ((x >>> n) ||| (x <<< (32 - n)))

/-- SHA-256 choice function Ch(x,y,z); complement is xor against the 32-bit mask. -/
def ch32 (x y z : Nat) : Nat := (x &&& y) ^^^ ((x ^^^ 4294967295) &&& z)

/-- SHA-256 majority function Maj(x,y,z). -/
def maj32 (x y z : Nat) : Nat := (x &&& y) ^^^ (x &&& z) ^^^ (y &&& z)

/-- SHA-256 big sigma 0. -/
def bsig0 (x : Nat) : Nat := rotr32 x 2 ^^^ rotr32 x 13 ^^^ rotr32 x 22

/-- SHA-256 big sigma 1. -/
def bsig1 (x : Nat) : Nat := rotr32 x 6 ^^^ rotr32 x 11 ^^^ rotr32 x 25

/-- SHA-256 small sigma 0. -/
def ssig0 (x : Nat) : Nat := rotr32 x 7 ^^^ rotr32 x 18 ^^^ (x >>> 3)

/-- SHA-256 small sigma 1. -/
def ssig1 (x : Nat) : Nat := rotr32 x 17 ^^^ rotr32 x 19 ^^^ (x >>> 10)

/-- The 64 SHA-256 round constants of FIPS 180-4. -/
def sha256K : List Nat :=
  [1116352408, 1899447441, 3049323471, 3921009573,
   961987163, 1508970993, 2453635748, 2870763221,
   3624381080, 310598401, 607225278, 1426881987,
   1925078388, 2162078206, 2614888103, 3248222580,
   3835390401, 4022224774, 264347078, 604807628,
   770255983, 1249150122, 1555081692, 1996064986,
   2554220882, 2821834349, 2952996808, 3210313671,
   3336571891, 3584528711, 113926993, 338241895,
   666307205, 773529912, 1294757372, 1396182291,
   1695183700, 1986661051, 2177026350, 2456956037,
   2730485921, 2820302411, 3259730800, 3345764771,
   3516065817, 3600352804, 4094571909, 275423344,
   430227734, 506948616, 659060556, 883997877,
   958139571, 1322822218, 1537002063, 1747873779,
   1955562222, 2024104815, 2227730452, 2361852424,
   2428436474, 2756734187, 3204031479, 3329325298]

/-- Working state of the SHA-256 compression function: eight 32-bit words. -/
structure H8 where
  a : Nat
  b : Nat
  c : Nat
  d : Nat
  e : Nat
  f : Nat
  g : Nat
  h : Nat

/-- The SHA-256 initial hash value H0. -/
def sha256H0 : H8 :=
  ⟨1779033703,
   3144134277,
   1013904242,
   2773480762,
   1359893119,
   2600822924,
   528734635,
   1541459225⟩

/-- One SHA-256 round, consuming a round constant and a schedule word. -/
def sha256Round (st : H8) (kc w : Nat) : H8 :=
  let t1 := w32 (st.h + bsig1 st.e + ch32 st.e st.f st.g + kc + w)
  let t2 := w32 (bsig0 st.a + maj32 st.a st.b st.c)
  ⟨w32 (t1 + t2), st.a, st.b, st.c, w32 (st.d + t1), st.e, st.f, st.g⟩

/-- Group a byte list into 32-bit big-endian words, four bytes per word. -/
def bytesToWords : List Nat → List Nat
  | b0 :: b1 :: b2 :: b3 :: rest =>
      (b0 * 16777216 + b1 * 65536 + b2 * 256 + b3) :: bytesToWords rest
  | _ => []

/-- Apply a function `n` times. -/
def applyIter {α : Type} (f : α → α) : Nat → α → α
  | 0, x => x
  | n + 1, x => applyIter f n (f x)

/-- Append the next message-schedule word to a partial schedule. -/
def scheduleStep (ws : List Nat) : List Nat :=
  let n := ws.length
  ws ++ [w32 (ssig1 (ws.getD (n - 2) 0) + ws.getD (n - 7) 0 +
              ssig0 (ws.getD (n - 15) 0) + ws.getD (n - 16) 0)]

/-- Compress one 64-byte block into the running state. -/
def compressBlock (st : H8) (block : List Nat) : H8 :=
  let ws := applyIter scheduleStep 48 (bytesToWords block)
  let s2 := (sha256K.zip ws).foldl (fun s p => sha256Round s p.1 p.2) st
  ⟨w32 (st.a + s2.a), w32 (st.b + s2.b), w32 (st.c + s2.c), w32 (st.d + s2.d),
   w32 (st.e + s2.e), w32 (st.f + s2.f), w32 (st.g + s2.g), w32 (st.h + s2.h)⟩

/-- Big-endian 8-byte serialization of a 64-bit length field. -/
def be64 (n : Nat) : List Nat :=
  [(n >>> 56) % 256, (n >>> 48) % 256, (n >>> 40) % 256, (n >>> 32) % 256,
   (n >>> 24) % 256, (n >>> 16) % 256, (n >>> 8) % 256, n % 256]

/-- FIPS 180-4 padding: a 0x80 byte, zeros to 56 mod 64, then the bit length. -/
def sha256Pad (msg : List Nat) : List Nat :=
  let z := (64 + 56 - ((msg.length + 1) % 64)) % 64
  msg ++ [128] ++ List.replicate z 0 ++ be64 (8 * msg.length)

/-- Fuel-driven worker for `chunks64`; the fuel bounds the recursion depth. -/
def chunks64Go : Nat → List Nat → List (List Nat)
  | 0, _ => []
  | _, [] => []
  | fuel + 1, l => l.take 64 :: chunks64Go fuel (l.drop 64)

/-- Split a byte list into consecutive 64-byte chunks. -/
def chunks64 (l : List Nat) : List (List Nat) := chunks64Go l.length l

/-- Big-endian serialization of one 32-bit word to four bytes. -/
def wordBytes (w : Nat) : List Nat :=
  [(w >>> 24) % 256, (w >>> 16) % 256, (w >>> 8) % 256, w % 256]

/-- SHA-256 of a byte list, as the 32-byte digest. -/
def sha256 (msg : List Nat) : List Nat :=
  let st := (chunks64 (sha256Pad msg)).foldl compressBlock sha256H0
  wordBytes st.a ++ wordBytes st.b ++ wordBytes st.c ++ wordBytes st.d ++
  wordBytes st.e ++ wordBytes st.f ++ wordBytes st.g ++ wordBytes st.h

/-- HMAC-SHA256 over byte lists (RFC 2104, block size 64), the function the
source reaches through `crypto.subtle.importKey` / `crypto.subtle.sign`. -/
def hmacSha256Bytes (key msg : List Nat) : List Nat :=
  let k0 := if 64 < key.length then sha256 key else key
  let kp := k0 ++ List.replicate (64 - k0.length) 0
  sha256 ((kp.map fun b => b ^^^ 92) ++ sha256 ((kp.map fun b => b ^^^ 54) ++ msg))

/-- UTF-8 encoding of one Unicode scalar value, as bytes. -/
def utf8EncodeChar (n : Nat) : List Nat :=
  if n < 128 then [n]
  else if n < 2048 then [192 + n / 64, 128 + n % 64]
  else if n < 65536 then [224 + n / 4096, 128 + (n / 64) % 64, 128 + n % 64]
  else [240 + n / 262144, 128 + (n / 4096) % 64, 128 + (n / 64) % 64, 128 + n % 64]

/-- UTF-8 bytes of a string, mirroring the source's `TextEncoder().encode`. -/
def utf8Bytes (s : String) : List Nat :=
  s.data.foldr (fun c acc => utf8EncodeChar c.toNat ++ acc) []

/-- Lowercase hexadecimal digit for a value below 16. -/
def hexDigit (n : Nat) : Char :=
  if n < 10 then Char.ofNat (48 + n) else Char.ofNat (87 + n)

/-- Two lowercase hex characters per byte, mirroring the per-byte
`toString(16).padStart(2, '0')` of the source's `bufferToHex`. -/
def hexChars : List Nat → List Char
  | [] => []
  | b :: rest => hexDigit (b / 16 % 16) :: hexDigit (b % 16) :: hexChars rest

/-- Hex encoding of a byte list, mirroring the source's `bufferToHex`. -/
def bufferToHex (bs : List Nat) : String := String.mk (hexChars bs)

/-- The HMAC computation as exposed by the source's `hmacSha256(key, data)`
when the key is raw bytes: the data string is UTF-8 encoded. -/
def hmacSha256 (key : List Nat) (data : String) : List Nat :=
  hmacSha256Bytes key (utf8Bytes data)

set_option maxRecDepth 4000

theorem sha256_nil_vector :
    bufferToHex (sha256 []) =
      "e3b0c44298fc1c149afbf4c8996fb92427ae41e4649b934ca495991b7852b855" := by
  rfl

theorem sha256_abc_vector :
    bufferToHex (sha256 (utf8Bytes "abc")) =
      "ba7816bf8f01cfea414140de5dae2223b00361a396177a9cb410ff61f20015ad" := by
  rfl

theorem hmac_rfc4231_case2 :
    bufferToHex (hmacSha256 (utf8Bytes "Jefe") "what do ya want for nothing?") =
      "5bdcc146bf60754e6a042426089575c75a003f089d2739839dec58b964ec3843" := by
  rfl

/-- The UTC field view of a JavaScript `Date`, as read by the source's
`formatDate` through `getUTCFullYear`, `getUTCMonth` (0-based), `getUTCDate`,
`getUTCHours`, `getUTCMinutes`, `getUTCSeconds`. -/
structure UTCDate where
  year : Nat
  month : Nat
  day : Nat
  hour : Nat
  minute : Nat
  second : Nat

/-- Decimal rendering padded on the left to two characters with a zero,
mirroring `String(n).padStart(2, '0')`. -/
def pad2 (n : Nat) : String :=
  let s := Nat.repr n
  if s.length < 2 then "0" ++ s else s

/-- The pair of date renderings returned by the source's `formatDate`. -/
structure DateStrings where
  short : String
  long : String

/-- Embedding of `formatDate` from src/signer.ts: the year is interpolated
unpadded, month (shifted to 1-based), day, hours, minutes and seconds are
padded to two digits. -/
def formatDate (d : UTCDate) : DateStrings :=
  let year := Nat.repr d.year
  let month := pad2 (d.month + 1)
  let day := pad2 d.day
  let hours := pad2 d.hour
  let minutes := pad2 d.minute
  let seconds := pad2 d.second
  ⟨year ++ month ++ day,
   year ++ month ++ day ++ "T" ++ hours ++ minutes ++ seconds ++ "Z"⟩

/-- Characters left unescaped by JavaScript `encodeURIComponent`: ASCII
letters, digits, and `- _ . ! ~ * ' ( )` (codes 45, 95, 46, 33, 126, 42, 39,
40, 41). -/
def jsUriUnreserved (c : Char) : Bool :=
  (65 ≤ c.toNat && c.toNat ≤ 90) || (97 ≤ c.toNat && c.toNat ≤ 122) ||
  (48 ≤ c.toNat && c.toNat ≤ 57) || c.toNat = 45 || c.toNat = 95 ||
  c.toNat = 46 || c.toNat = 33 || c.toNat = 126 || c.toNat = 42 ||
  c.toNat = 39 || c.toNat = 40 || c.toNat = 41

/-- Uppercase hexadecimal digit for a value below 16. -/
def upperHexDigit (n : Nat) : Char :=
  if n < 10 then Char.ofNat (48 + n) else Char.ofNat (55 + n)

/-- Percent-escape of one byte, uppercase hex as produced by
`encodeURIComponent`. -/
def percentEncodeByte (b : Nat) : List Char :=
  ['%', upperHexDigit (b / 16 % 16), upperHexDigit (b % 16)]

/-- Embedding of JavaScript `encodeURIComponent`: unreserved characters pass
through, every other character is replaced by the percent-escapes of its
UTF-8 bytes. -/
def encodeURIComponent (s : String) : String :=
  String.mk (s.data.foldr
    (fun c acc =>
      (if jsUriUnreserved c then [c]
       else (utf8EncodeChar c.toNat).foldr (fun b a => percentEncodeByte b ++ a) []) ++ acc)
    [])

/-- Replace every occurrence of the character `t` by the character list `r`,
mirroring a global single-character regex replace. -/
def replaceChar (t : Char) (r : List Char) : List Char → List Char
  | [] => []
  | c :: rest => (if c = t then r else [c]) ++ replaceChar t r rest

/-- Replace every occurrence of the three-character sequence "%2F" by a
literal slash, mirroring `.replace(/%2F/g, '/')`. -/
def unescapeSlash : List Char → List Char
  | '%' :: '2' :: 'F' :: rest => '/' :: unescapeSlash rest
  | c :: rest => c :: unescapeSlash rest
  | [] => []

/-- Embedding of `uriEncode` from src/signer.ts: `encodeURIComponent`, then
re-escape `!`, `'` (code 39), `(`, `)`, `*`, then optionally un-escape `%2F`
back to `/`. -/
def uriEncode (str : String) (encodeSlash : Bool := true) : String :=
  let r0 := (encodeURIComponent str).data
  let r1 := replaceChar '!' ['%', '2', '1'] r0
  let r2 := replaceChar (Char.ofNat 39) ['%', '2', '7'] r1
  let r3 := replaceChar '(' ['%', '2', '8'] r2
  let r4 := replaceChar ')' ['%', '2', '9'] r3
  let r5 := replaceChar '*' ['%', '2', 'A'] r4
  if encodeSlash then String.mk r5 else String.mk (unescapeSlash r5)

/-- Embedding of the `TOSSignOptions` input of `signTOSRequest`
(src/signer.ts).  Optional fields are `Option`s; `contentType` defaults at
destructuring (only when absent), while `contentSha256` is defaulted through
JavaScript `||` (so the empty string is also replaced by the sentinel).

The `queryString` field is Modelled from the spec: the SignRequest of the
specification carries "an optional raw query string", and the repository's
`list` operation passes `queryString` into `signTOSRequest`, but the signer
revision that declares and consumes this field is not among the provided
sources (the provided src/signer.ts snapshot predates it and pins the query
line to the empty string).  Following the spec, the field is used verbatim as
the query line of the canonical request, empty string when absent, so with
`queryString = none` this embedding coincides exactly with the provided
snapshot. -/
structure SignRequest where
  method : String
  bucket : String
  key : String
  region : String
  endpoint : String
  accessKeyId : String
  secretAccessKey : String
  contentType : Option String
  contentSha256 : Option String
  date : Option UTCDate
  queryString : Option String
  debug : Bool

/-- The signing instant: the supplied `date`, defaulting to the ambient clock
`now` (the source's `date = new Date()` destructuring default). -/
def effDate (now : UTCDate) (r : SignRequest) : UTCDate := r.date.getD now

/-- Host composition of src/signer.ts. -/
def hostOf (r : SignRequest) : String := r.bucket ++ "." ++ r.endpoint

/-- Canonical URI of src/signer.ts: a slash followed by the slash-preserving
encoding of the key. -/
def uriOf (r : SignRequest) : String := "/" ++ uriEncode r.key false

/-- Payload hash of src/signer.ts: `contentSha256 || 'UNSIGNED-PAYLOAD'`;
JavaScript `||` treats both an absent field and the empty string as falsy. -/
def payloadHash (r : SignRequest) : String :=
  match r.contentSha256 with
  | some s => if s = "" then "UNSIGNED-PAYLOAD" else s
  | none => "UNSIGNED-PAYLOAD"

/-- Canonical headers block of src/signer.ts: host, content hash, date, in
this order, newline-joined. -/
def canonicalHeaders (now : UTCDate) (r : SignRequest) : String :=
  "host:" ++ hostOf r ++ "\n" ++
  "x-tos-content-sha256:" ++ payloadHash r ++ "\n" ++
  "x-tos-date:" ++ (formatDate (effDate now r)).long

/-- The fixed signed-headers list of src/signer.ts. -/
def signedHeadersList : String := "host;x-tos-content-sha256;x-tos-date"

/-- Canonical request of src/signer.ts: method, URI, query line, canonical
headers, empty line, signed-headers list, payload hash, newline-joined. -/
def canonicalRequest (now : UTCDate) (r : SignRequest) : String :=
  r.method ++ "\n" ++
  uriOf r ++ "\n" ++
  r.queryString.getD "" ++ "\n" ++
  canonicalHeaders now r ++ "\n" ++
  "" ++ "\n" ++
  signedHeadersList ++ "\n" ++
  payloadHash r

/-- Lowercase hex SHA-256 of the canonical request. -/
def canonicalRequestHashHex (now : UTCDate) (r : SignRequest) : String :=
  bufferToHex (sha256 (utf8Bytes (canonicalRequest now r)))

/-- Credential scope of src/signer.ts. -/
def credentialScope (now : UTCDate) (r : SignRequest) : String :=
  (formatDate (effDate now r)).short ++ "/" ++ r.region ++ "/tos/request"

/-- String-to-sign of src/signer.ts. -/
def stringToSign (now : UTCDate) (r : SignRequest) : String :=
  "TOS4-HMAC-SHA256" ++ "\n" ++
  (formatDate (effDate now r)).long ++ "\n" ++
  credentialScope now r ++ "\n" ++
  canonicalRequestHashHex now r

/-- First derived key of src/signer.ts: the secret (UTF-8 bytes) keys an
HMAC over the short date. -/
def kDateOf (now : UTCDate) (r : SignRequest) : List Nat :=
  hmacSha256 (utf8Bytes r.secretAccessKey) (formatDate (effDate now r)).short

/-- Second derived key: `kDate` keys an HMAC over the region. -/
def kRegionOf (now : UTCDate) (r : SignRequest) : List Nat :=
  hmacSha256 (kDateOf now r) r.region

/-- Third derived key: `kRegion` keys an HMAC over the literal "tos". -/
def kServiceOf (now : UTCDate) (r : SignRequest) : List Nat :=
  hmacSha256 (kRegionOf now r) "tos"

/-- Fourth derived key: `kService` keys an HMAC over the literal "request". -/
def kSigningOf (now : UTCDate) (r : SignRequest) : List Nat :=
  hmacSha256 (kServiceOf now r) "request"

/-- Hex signature of src/signer.ts: `kSigning` keys an HMAC over the
string-to-sign, hex-encoded. -/
def signatureHex (now : UTCDate) (r : SignRequest) : String :=
  bufferToHex (hmacSha256 (kSigningOf now r) (stringToSign now r))

/-- Authorization header value of src/signer.ts. -/
def authorization (now : UTCDate) (r : SignRequest) : String :=
  "TOS4-HMAC-SHA256 Credential=" ++ r.accessKeyId ++ "/" ++ credentialScope now r ++
  ", SignedHeaders=" ++ signedHeadersList ++ ", Signature=" ++ signatureHex now r

/-- Embedding of `signTOSRequest` (src/signer.ts): the returned header
collection, in the order the source sets its five entries. -/
def signTOSRequest (now : UTCDate) (r : SignRequest) : List (String × String) :=
  [("Host", hostOf r),
   ("X-Tos-Date", (formatDate (effDate now r)).long),
   ("X-Tos-Content-Sha256", payloadHash r),
   ("Authorization", authorization now r),
   ("Content-Type", r.contentType.getD "application/octet-stream")]

/-- A JavaScript value as it matters to the client/signer field handoff:
a string, a boolean, or `undefined` (the result of reading an absent
property). -/
inductive JsVal where
  | str : String → JsVal
  | bool : Bool → JsVal
  | undef : JsVal

/-- Embedding of the `TOSClientOptions` the client is constructed with
(src/client.ts): note the secret credential field is named
`accessKeySecret`. -/
structure TOSClientOptions where
  region : String
  endpoint : String
  accessKeyId : String
  accessKeySecret : String
  debug : Option Bool

/-- Dynamic property read on a JavaScript object literal: an absent property
reads as `undefined`.  This is what destructuring in `signTOSRequest` does
for each field it names. -/
def jsGet (o : List (String × JsVal)) (k : String) : JsVal :=
  (o.lookup k).getD JsVal.undef

/-- The `debug` property value the client forwards. -/
def debugVal (cfg : TOSClientOptions) : JsVal :=
  match cfg.debug with
  | some b => JsVal.bool b
  | none => JsVal.undef

/-- The object literal `TOSClient.upload` passes to `signTOSRequest`
(src/client.ts): field names exactly as written at the call site. -/
def uploadSignArgs (cfg : TOSClientOptions)
    (bucket key contentType contentSha256 : String) : List (String × JsVal) :=
  [("method", JsVal.str "PUT"),
   ("bucket", JsVal.str bucket),
   ("key", JsVal.str key),
   ("region", JsVal.str cfg.region),
   ("endpoint", JsVal.str cfg.endpoint),
   ("accessKeyId", JsVal.str cfg.accessKeyId),
   ("accessKeySecret", JsVal.str cfg.accessKeySecret),
   ("contentType", JsVal.str contentType),
   ("contentSha256", JsVal.str contentSha256),
   ("debug", debugVal cfg)]

/-- The object literal the simple operations (`download` with GET, `delete`
with DELETE, `exists` with HEAD) pass to `signTOSRequest` (src/client.ts):
same fields as upload but no `contentType`, and the sentinel payload hash. -/
def simpleSignArgs (cfg : TOSClientOptions)
    (method bucket key : String) : List (String × JsVal) :=
  [("method", JsVal.str method),
   ("bucket", JsVal.str bucket),
   ("key", JsVal.str key),
   ("region", JsVal.str cfg.region),
   ("endpoint", JsVal.str cfg.endpoint),
   ("accessKeyId", JsVal.str cfg.accessKeyId),
   ("accessKeySecret", JsVal.str cfg.accessKeySecret),
   ("contentSha256", JsVal.str "UNSIGNED-PAYLOAD"),
   ("debug", debugVal cfg)]

/-- The sixteen lowercase hexadecimal characters. -/
def lowerHexDigits : List Char := "0123456789abcdef".data

theorem sha256_length (m : List Nat) : (sha256 m).length = 32 := by
  simp [sha256, wordBytes]

theorem hmacSha256Bytes_length (k m : List Nat) :
    (hmacSha256Bytes k m).length = 32 := by
  simp [hmacSha256Bytes, sha256_length]

theorem hexChars_length (bs : List Nat) : (hexChars bs).length = 2 * bs.length := by
  induction bs with
  | nil => simp [hexChars]
  | cons b t ih => simp [hexChars, ih]; omega

theorem bufferToHex_length (bs : List Nat) : (bufferToHex bs).length = 2 * bs.length := by
  simp [bufferToHex, String.length_mk, hexChars_length]

theorem hexDigit_lower : ∀ n, n < 16 → hexDigit n ∈ lowerHexDigits := by decide

theorem hexChars_lower (bs : List Nat) : hexChars bs ⊆ lowerHexDigits := by
  induction bs with
  | nil => simp [hexChars]
  | cons b t ih =>
      simp only [hexChars, List.cons_subset]
      exact ⟨hexDigit_lower _ (Nat.mod_lt _ (by omega)),
             hexDigit_lower _ (Nat.mod_lt _ (by omega)), ih⟩

theorem signatureHex_length (now : UTCDate) (r : SignRequest) :
    (signatureHex now r).length = 64 := by
  simp [signatureHex, hmacSha256, bufferToHex_length, hmacSha256Bytes_length]

theorem signatureHex_lower (now : UTCDate) (r : SignRequest) :
    (signatureHex now r).data ⊆ lowerHexDigits :=
  hexChars_lower _

theorem toDigitsCore_len (f : Nat) :
    ∀ (n : Nat) (l : List Char), n < 10 ^ f → 0 < f →
      (Nat.toDigitsCore 10 f n l).length = l.length + Nat.log 10 n + 1 := by
  induction f with
  | zero => intro n l _ h0; exact absurd h0 (by omega)
  | succ f ih =>
      intro n l hn _
      by_cases h10 : n / 10 = 0
      · have hlog : Nat.log 10 n = 0 := by
          rw [Nat.log_eq_zero_iff]
          left
          omega
        simp [Nat.toDigitsCore, h10, hlog]
      · have hge : 10 ≤ n := by omega
        have hf : 0 < f := by
          rcases Nat.eq_zero_or_pos f with h | h
          · subst h; simp at hn; omega
          · exact h
        have hdiv : n / 10 < 10 ^ f := by
          have hp : 10 ^ (f + 1) = 10 ^ f * 10 := by ring
          rw [hp] at hn
          omega
        have hrec := ih (n / 10) (Nat.digitChar (n % 10) :: l) hdiv hf
        have hlog : Nat.log 10 (n / 10) = Nat.log 10 n - 1 := Nat.log_div_base 10 n
        have hpos : 0 < Nat.log 10 n := Nat.log_pos (by omega) hge
        simp only [Nat.toDigitsCore, h10, if_false]
        rw [hrec, hlog]
        simp only [List.length_cons]
        omega

theorem repr_length_eq (n : Nat) : (Nat.repr n).length = Nat.log 10 n + 1 := by
  have hlt : n < 10 ^ (n + 1) :=
    calc n < 10 ^ n := Nat.lt_pow_self (by norm_num) n
    _ ≤ 10 ^ (n + 1) := Nat.pow_le_pow_right (by norm_num) (by omega)
  have h := toDigitsCore_len (n + 1) n [] hlt (Nat.succ_pos n)
  simpa [Nat.repr, Nat.toDigits, List.asString, String.length] using h

theorem repr_len_four (y : Nat) (h1 : 1000 ≤ y) (h2 : y ≤ 9999) :
    (Nat.repr y).length = 4 := by
  have hlog : Nat.log 10 y = 3 :=
    Nat.log_eq_of_pow_le_of_lt_pow (show 10 ^ 3 ≤ y by norm_num; omega)
      (show y < 10 ^ (3 + 1) by norm_num; omega)
  rw [repr_length_eq, hlog]

theorem pad2_length (n : Nat) (h : n < 100) : (pad2 n).length = 2 := by
  have hzero : ("0" : String).length = 1 := rfl
  rcases Nat.lt_or_ge n 10 with h10 | h10
  · have hlog : Nat.log 10 n = 0 := by
      rw [Nat.log_eq_zero_iff]
      left
      omega
    have hl : (Nat.repr n).length = 1 := by rw [repr_length_eq, hlog]
    simp only [pad2, hl]
    rw [if_pos (by norm_num), String.length_append, hzero, hl]
  · have hlog : Nat.log 10 n = 1 :=
      Nat.log_eq_of_pow_le_of_lt_pow (show 10 ^ 1 ≤ n by norm_num; omega)
        (show n < 10 ^ (1 + 1) by norm_num; omega)
    have hl : (Nat.repr n).length = 2 := by rw [repr_length_eq, hlog]
    simp only [pad2, hl]
    rw [if_neg (by norm_num)]
    exact hl

/-- The object literal `TOSClient.download` passes to `signTOSRequest`. -/
def downloadSignArgs (cfg : TOSClientOptions) (bucket key : String) :
    List (String × JsVal) :=
  simpleSignArgs cfg "GET" bucket key

/-- The object literal `TOSClient.delete` passes to `signTOSRequest`. -/
def deleteSignArgs (cfg : TOSClientOptions) (bucket key : String) :
    List (String × JsVal) :=
  simpleSignArgs cfg "DELETE" bucket key

/-- The object literal `TOSClient.exists` passes to `signTOSRequest`. -/
def existsSignArgs (cfg : TOSClientOptions) (bucket key : String) :
    List (String × JsVal) :=
  simpleSignArgs cfg "HEAD" bucket key

/-- The canonical-URI key encoding in the stages the specification names:
the generic component encoder, the extra escaping of `!`, `'`, `(`, `)`,
`*`, then un-escaping of %2F back to a literal slash. -/
def specEncodeKey (key : String) : String :=
  String.mk (unescapeSlash
    (replaceChar '*' ['%', '2', 'A']
      (replaceChar ')' ['%', '2', '9']
        (replaceChar '(' ['%', '2', '8']
          (replaceChar (Char.ofNat 39) ['%', '2', '7']
            (replaceChar '!' ['%', '2', '1'] (encodeURIComponent key).data))))))

/-- A fixed signing instant, 2025-01-01T00:00:00Z, used for witnesses. -/
def sampleDate : UTCDate := ⟨2025, 0, 1, 0, 0, 0⟩

/-- A concrete well-formed SignRequest used for witnesses. -/
def sampleRequest : SignRequest :=
  { method := "PUT"
    bucket := "test-bucket"
    key := "path/to/file.txt"
    region := "cn-beijing"
    endpoint := "tos-cn-beijing.volces.com"
    accessKeyId := "AKIDEXAMPLE"
    secretAccessKey := "secret-key"
    contentType := some "text/plain"
    contentSha256 := some "abc123"
    date := some sampleDate
    queryString := none
    debug := false }

/-- A concrete list-style SignRequest carrying a raw query string. -/
def sampleListRequest : SignRequest :=
  { sampleRequest with key := "", queryString := some "list-type=2" }

/-- C1: the signing key chain equals kDate = HMAC(secret bytes, short date),
kRegion = HMAC(kDate, region), kService = HMAC(kRegion, "tos"),
kSigning = HMAC(kService, "request"), each key chained forward as raw bytes,
and the signature is the 64-character lowercase hex of
HMAC(kSigning, string-to-sign). -/
theorem c1_key_chain_and_signature (now : UTCDate) (r : SignRequest) :
    kDateOf now r =
      hmacSha256Bytes (utf8Bytes r.secretAccessKey)
        (utf8Bytes (formatDate (effDate now r)).short) ∧
    kRegionOf now r = hmacSha256Bytes (kDateOf now r) (utf8Bytes r.region) ∧
    kServiceOf now r = hmacSha256Bytes (kRegionOf now r) (utf8Bytes "tos") ∧
    kSigningOf now r = hmacSha256Bytes (kServiceOf now r) (utf8Bytes "request") ∧
    signatureHex now r =
      bufferToHex (hmacSha256Bytes (kSigningOf now r) (utf8Bytes (stringToSign now r))) ∧
    (signatureHex now r).length = 64 ∧
    (signatureHex now r).data ⊆ lowerHexDigits :=
  ⟨rfl, rfl, rfl, rfl, rfl, signatureHex_length now r, signatureHex_lower now r⟩

/-- C2: the canonical request is the newline join of method, canonical URI,
the caller-supplied raw query string (empty if absent, verbatim otherwise),
the host/content-sha256/date canonical headers block, an empty line, the
fixed signed-headers list, and the payload hash; and this string is what
gets hashed. -/
theorem c2_canonical_request (now : UTCDate) (r : SignRequest) :
    canonicalRequestHashHex now r =
      bufferToHex (sha256 (utf8Bytes (canonicalRequest now r))) ∧
    canonicalRequest now r =
      r.method ++ "\n" ++ uriOf r ++ "\n" ++ r.queryString.getD "" ++ "\n" ++
      "host:" ++ hostOf r ++ "\n" ++ "x-tos-content-sha256:" ++ payloadHash r ++ "\n" ++
      "x-tos-date:" ++ (formatDate (effDate now r)).long ++ "\n" ++ "" ++ "\n" ++
      "host;x-tos-content-sha256;x-tos-date" ++ "\n" ++ payloadHash r ∧
    (r.queryString = none →
      canonicalRequest now r =
        r.method ++ "\n" ++ uriOf r ++ "\n" ++ "" ++ "\n" ++ canonicalHeaders now r ++
        "\n" ++ "" ++ "\n" ++ signedHeadersList ++ "\n" ++ payloadHash r) ∧
    (∀ q, r.queryString = some q →
      canonicalRequest now r =
        r.method ++ "\n" ++ uriOf r ++ "\n" ++ q ++ "\n" ++ canonicalHeaders now r ++
        "\n" ++ "" ++ "\n" ++ signedHeadersList ++ "\n" ++ payloadHash r) := by
  refine ⟨rfl, ?_, ?_, ?_⟩
  · simp [canonicalRequest, canonicalHeaders, signedHeadersList, String.ext_iff,
      String.data_append, List.append_assoc]
  · intro h
    simp [canonicalRequest, h]
  · intro q h
    simp [canonicalRequest, h]

theorem c2_canonical_request_witness :
    canonicalRequest sampleDate sampleListRequest =
      sampleListRequest.method ++ "\n" ++ uriOf sampleListRequest ++ "\n" ++
      "list-type=2" ++ "\n" ++ canonicalHeaders sampleDate sampleListRequest ++
      "\n" ++ "" ++ "\n" ++ signedHeadersList ++ "\n" ++
      payloadHash sampleListRequest :=
  (c2_canonical_request sampleDate sampleListRequest).2.2.2 "list-type=2" rfl

/-- C3: every client operation hands the secret to the signer under the
field name `accessKeySecret`, while the signer destructures
`secretAccessKey`; the property the signer reads is therefore `undefined`
for every configured credential, never the configured secret. -/
theorem c3_credential_field_mismatch (cfg : TOSClientOptions)
    (bucket key contentType contentSha256 : String) :
    jsGet (uploadSignArgs cfg bucket key contentType contentSha256)
        "secretAccessKey" = JsVal.undef ∧
    jsGet (downloadSignArgs cfg bucket key) "secretAccessKey" = JsVal.undef ∧
    jsGet (deleteSignArgs cfg bucket key) "secretAccessKey" = JsVal.undef ∧
    jsGet (existsSignArgs cfg bucket key) "secretAccessKey" = JsVal.undef ∧
    jsGet (uploadSignArgs cfg bucket key contentType contentSha256)
        "accessKeySecret" = JsVal.str cfg.accessKeySecret ∧
    jsGet (uploadSignArgs cfg bucket key contentType contentSha256)
        "secretAccessKey" ≠ JsVal.str cfg.accessKeySecret :=
  ⟨rfl, rfl, rfl, rfl, rfl, fun h => JsVal.noConfusion h⟩

/-- C4: the canonical URI is a slash followed by the key encoded by the
component encoder with `!`, `'`, `(`, `)`, `*` re-escaped and %2F restored
to literal slashes; the empty key yields "/", and the mixed
space/parenthesis/non-ASCII example encodes with its slashes preserved. -/
theorem c4_canonical_uri (r : SignRequest) :
    uriOf r = "/" ++ specEncodeKey r.key ∧
    (r.key = "" → uriOf r = "/") ∧
    uriEncode "path/to/文件 (1).txt" false =
      "path/to/%E6%96%87%E4%BB%B6%20%281%29.txt" ∧
    uriEncode "" false = "" := by
  refine ⟨rfl, ?_, rfl, rfl⟩
  intro h
  simp [uriOf, h]
  rfl

theorem c4_canonical_uri_witness :
    uriOf { sampleRequest with key := "" } = "/" :=
  (c4_canonical_uri { sampleRequest with key := "" }).2.1 rfl

/-- C5: the Authorization value is exactly the TOS4-HMAC-SHA256 credential
line with scope shortDate/region/tos/request, the fixed signed-headers
list, and the 64-character lowercase hex signature; in particular it always
starts with "TOS4-HMAC-SHA256 Credential=". -/
theorem c5_authorization_value (now : UTCDate) (r : SignRequest) :
    authorization now r =
      "TOS4-HMAC-SHA256 Credential=" ++ r.accessKeyId ++ "/" ++
        (formatDate (effDate now r)).short ++ "/" ++ r.region ++ "/tos/request" ++
        ", SignedHeaders=" ++ "host;x-tos-content-sha256;x-tos-date" ++
        ", Signature=" ++ signatureHex now r ∧
    credentialScope now r =
      (formatDate (effDate now r)).short ++ "/" ++ r.region ++ "/tos/request" ∧
    (signatureHex now r).length = 64 ∧
    (signatureHex now r).data ⊆ lowerHexDigits ∧
    ∃ rest, authorization now r = "TOS4-HMAC-SHA256 Credential=" ++ rest := by
  refine ⟨?_, rfl, signatureHex_length now r, signatureHex_lower now r,
    r.accessKeyId ++ "/" ++ credentialScope now r ++ ", SignedHeaders=" ++
      signedHeadersList ++ ", Signature=" ++ signatureHex now r, ?_⟩
  · simp [authorization, credentialScope, signedHeadersList, String.ext_iff,
      String.data_append, List.append_assoc]
  · simp [authorization, String.ext_iff, String.data_append, List.append_assoc]

/-- C6: the result is exactly the five headers Host (bucket.endpoint),
X-Tos-Date (long form), X-Tos-Content-Sha256 (caller hash or sentinel),
Authorization, and Content-Type (caller value or the octet-stream
default). -/
theorem c6_signed_header_set (now : UTCDate) (r : SignRequest) :
    signTOSRequest now r =
      [("Host", r.bucket ++ "." ++ r.endpoint),
       ("X-Tos-Date", (formatDate (effDate now r)).long),
       ("X-Tos-Content-Sha256", payloadHash r),
       ("Authorization", authorization now r),
       ("Content-Type", r.contentType.getD "application/octet-stream")] ∧
    (signTOSRequest now r).length = 5 ∧
    (r.contentSha256 = none → payloadHash r = "UNSIGNED-PAYLOAD") ∧
    (∀ s, r.contentSha256 = some s → s ≠ "" → payloadHash r = s) ∧
    (signTOSRequest now
        { r with bucket := "test-bucket",
                 endpoint := "tos-cn-beijing.volces.com" }).lookup "Host" =
      some "test-bucket.tos-cn-beijing.volces.com" := by
  refine ⟨rfl, rfl, ?_, ?_, rfl⟩
  · intro h
    simp [payloadHash, h]
  · intro s h hne
    simp [payloadHash, h, hne]

theorem c6_signed_header_set_witness :
    payloadHash sampleRequest = "abc123" ∧
    payloadHash { sampleRequest with contentSha256 := none } = "UNSIGNED-PAYLOAD" :=
  ⟨(c6_signed_header_set sampleDate sampleRequest).2.2.2.1 "abc123" rfl (by decide),
   (c6_signed_header_set sampleDate
      { sampleRequest with contentSha256 := none }).2.2.1 rfl⟩

/-- C7 counterexample: at the JavaScript-reachable instant
0099-01-01T00:00:00Z the year is interpolated without padding, so the short
form is the 6-character "990101" rather than an 8-character YYYYMMDD, and
the long form has 14 characters rather than 16. -/
theorem c7_two_digit_year_counterexample :
    (formatDate ⟨99, 0, 1, 0, 0, 0⟩).short = "990101" ∧
    (formatDate ⟨99, 0, 1, 0, 0, 0⟩).short.length ≠ 8 ∧
    (formatDate ⟨99, 0, 1, 0, 0, 0⟩).long = "990101T000000Z" ∧
    (formatDate ⟨99, 0, 1, 0, 0, 0⟩).long.length ≠ 16 := by
  decide

/-- C7 amended: for signing instants whose UTC year has four decimal digits
(1000–9999) and in-range month/day/time fields, the short form is the
8-character YYYYMMDD and the long form the 16-character YYYYMMDDTHHMMSSZ,
with two-digit zero-padded fields; the fixed instant 2025-01-01T00:00:00Z
yields exactly "20250101" and "20250101T000000Z". -/
theorem c7_date_format_four_digit_years (d : UTCDate)
    (hy1 : 1000 ≤ d.year) (hy2 : d.year ≤ 9999) (hm : d.month ≤ 11)
    (hd : d.day ≤ 31) (hh : d.hour ≤ 23) (hmi : d.minute ≤ 59)
    (hs : d.second ≤ 59) :
    (formatDate d).short = Nat.repr d.year ++ pad2 (d.month + 1) ++ pad2 d.day ∧
    (formatDate d).long =
      (formatDate d).short ++ "T" ++ pad2 d.hour ++ pad2 d.minute ++
        pad2 d.second ++ "Z" ∧
    (formatDate d).short.length = 8 ∧
    (formatDate d).long.length = 16 ∧
    formatDate ⟨2025, 0, 1, 0, 0, 0⟩ = ⟨"20250101", "20250101T000000Z"⟩ := by
  have hshort : (formatDate d).short =
      Nat.repr d.year ++ pad2 (d.month + 1) ++ pad2 d.day := rfl
  have hsl : (formatDate d).short.length = 8 := by
    rw [hshort, String.length_append, String.length_append,
        repr_len_four d.year hy1 hy2, pad2_length (d.month + 1) (by omega),
        pad2_length d.day (by omega)]
  refine ⟨hshort, rfl, hsl, ?_, rfl⟩
  have hlong : (formatDate d).long =
      (formatDate d).short ++ "T" ++ pad2 d.hour ++ pad2 d.minute ++
        pad2 d.second ++ "Z" := rfl
  rw [hlong, String.length_append, String.length_append, String.length_append,
      String.length_append, String.length_append, hsl,
      pad2_length d.hour (by omega), pad2_length d.minute (by omega),
      pad2_length d.second (by omega)]
  decide

theorem c7_date_format_witness : (formatDate sampleDate).short.length = 8 :=
  (c7_date_format_four_digit_years sampleDate (by decide) (by decide) (by decide)
    (by decide) (by decide) (by decide) (by decide)).2.2.1

/-- C8: with a fixed timestamp supplied in the request, the signer is a pure
function of the request alone: the ambient clock does not influence any
header, and repeated calls agree byte for byte. -/
theorem c8_determinism (now1 now2 : UTCDate) (r : SignRequest) (d : UTCDate)
    (h : r.date = some d) :
    signTOSRequest now1 r = signTOSRequest now2 r := by
  have he : effDate now1 r = effDate now2 r := by simp [effDate, h]
  simp only [signTOSRequest, authorization, credentialScope, signatureHex,
    kSigningOf, kServiceOf, kRegionOf, kDateOf, stringToSign,
    canonicalRequestHashHex, canonicalRequest, canonicalHeaders, he]

theorem c8_determinism_witness :
    signTOSRequest sampleDate sampleRequest =
      signTOSRequest ⟨2026, 5, 6, 7, 8, 9⟩ sampleRequest :=
  c8_determinism sampleDate ⟨2026, 5, 6, 7, 8, 9⟩ sampleRequest sampleDate rfl

/-- C10: a present-but-empty contentSha256 behaves exactly like an absent
one: the sentinel UNSIGNED-PAYLOAD is used in the canonical headers block,
as the final canonical-request line, and as the X-Tos-Content-Sha256 header,
and the whole result coincides with the field-absent result. -/
theorem c10_empty_content_sha256 (now : UTCDate) (r : SignRequest)
    (h : r.contentSha256 = some "") :
    payloadHash r = "UNSIGNED-PAYLOAD" ∧
    signTOSRequest now r = signTOSRequest now { r with contentSha256 := none } ∧
    canonicalHeaders now r =
      "host:" ++ hostOf r ++ "\n" ++ "x-tos-content-sha256:" ++
        "UNSIGNED-PAYLOAD" ++ "\n" ++ "x-tos-date:" ++
        (formatDate (effDate now r)).long ∧
    canonicalRequest now r =
      r.method ++ "\n" ++ uriOf r ++ "\n" ++ r.queryString.getD "" ++ "\n" ++
        canonicalHeaders now r ++ "\n" ++ "" ++ "\n" ++ signedHeadersList ++
        "\n" ++ "UNSIGNED-PAYLOAD" ∧
    (signTOSRequest now r).lookup "X-Tos-Content-Sha256" =
      some "UNSIGNED-PAYLOAD" := by
  have hp : payloadHash r = "UNSIGNED-PAYLOAD" := by simp [payloadHash, h]
  refine ⟨hp, ?_, ?_, ?_, ?_⟩
  · simp [signTOSRequest, authorization, credentialScope, signatureHex,
      kSigningOf, kServiceOf, kRegionOf, kDateOf, stringToSign,
      canonicalRequestHashHex, canonicalRequest, canonicalHeaders, hostOf,
      uriOf, effDate, payloadHash, h]
  · simp [canonicalHeaders, hp]
  · simp [canonicalRequest, hp]
  · simp [signTOSRequest, List.lookup, hp]

theorem pad2_inj : ∀ a, a < 100 → ∀ b, b < 100 → pad2 a = pad2 b → a = b := by
  decide

/-- Partial result towards the timestamp-sensitivity property: when two
supplied timestamps agree except in the (in-range) seconds field, the
X-Tos-Date headers differ.  The companion assertion of the specification,
that the Authorization values also always differ, additionally needs
adjacent HMAC-SHA256 inputs never to collide, which is neither provable nor
refutable for the concrete hash embedded here. -/
theorem x_tos_date_second_sensitivity (now : UTCDate) (r : SignRequest)
    (d : UTCDate) (s1 s2 : Nat) (hs1 : s1 ≤ 59) (hs2 : s2 ≤ 59) (hne : s1 ≠ s2)
    (h1 : r.date = some { d with second := s1 }) :
    (signTOSRequest now r).lookup "X-Tos-Date" ≠
      (signTOSRequest now { r with date := some { d with second := s2 } }).lookup
        "X-Tos-Date" := by
  intro heq
  apply hne
  apply pad2_inj s1 (by omega) s2 (by omega)
  have hlong : (formatDate { d with second := s1 }).long =
      (formatDate { d with second := s2 }).long := by
    simpa [signTOSRequest, List.lookup, effDate, h1] using heq
  have hdata : (formatDate { d with second := s1 }).long.data =
      (formatDate { d with second := s2 }).long.data := by rw [hlong]
  have hexp : ∀ s : Nat,
      (formatDate { d with second := s }).long.data =
        ((Nat.repr d.year ++ pad2 (d.month + 1) ++ pad2 d.day ++ "T" ++
          pad2 d.hour ++ pad2 d.minute).data ++ (pad2 s).data) ++ ("Z" : String).data := by
    intro s
    simp [formatDate, String.data_append, List.append_assoc]
  rw [hexp s1, hexp s2] at hdata
  have hmid := List.append_cancel_right hdata
  have htail := List.append_cancel_left hmid
  exact String.ext htail

theorem c10_empty_content_sha256_witness :
    payloadHash { sampleRequest with contentSha256 := some "" } =
      "UNSIGNED-PAYLOAD" :=
  (c10_empty_content_sha256 sampleDate
    { sampleRequest with contentSha256 := some "" } rfl).1

end VeTos
